import Mathlib

/-!
Shallow embedding of `src/delay_webapp_cloud.py` (Naver Smartstore delayed-
dispatch web app).  HTTP effects are modelled by an environment `Env` of
endpoint oracles; functions that issue requests additionally return the list
of requests they made, so that "no request was made" / "exactly one attempt"
properties are stated over that trace.  Strings are Lean `String`s (Python
`str`), machine-independent.
-/

namespace DelayWebapp

set_option autoImplicit false

/-- Python substring containment `needle in hay` (`str.__contains__`). -/
def containsSub (hay needle : String) : Bool :=
  decide (needle.toList <:+: hay.toList)

/-- Python `str.strip()`: drop whitespace at both ends. -/
def pyStrip (s : String) : String :=
  String.mk (((s.toList.dropWhile Char.isWhitespace).reverse.dropWhile
    Char.isWhitespace).reverse)

/-- `S(v)` (src lines 83-87): coerce to string and strip surrounding
whitespace (`str(v).strip()`); on string input this is stripping. -/
def S (v : String) : String := pyStrip v

/-- Python slicing `s[:n]`: the first `n` characters of `s`. -/
def pyTake (s : String) (n : Nat) : String :=
  String.mk (s.toList.take n)

/-- Python `s.replace(",", "\n")`: the pattern is a single character, so the
replacement is a character-wise map. -/
def replaceCommaNewline (s : String) : String :=
  String.mk (s.toList.map (fun c => if c = ',' then '\n' else c))

/-- Accumulator for `splitOnChar`. -/
def splitOnCharAux (sep : Char) : List Char → List Char → List String
  | [], acc => [String.mk acc.reverse]
  | c :: cs, acc =>
    if c = sep then String.mk acc.reverse :: splitOnCharAux sep cs []
    else splitOnCharAux sep cs (c :: acc)

/-- Python `s.split(sep)` for a single-character separator: keeps empty
segments, and the empty string yields `[""]`. -/
def splitOnChar (sep : Char) (s : String) : List String :=
  splitOnCharAux sep s.toList []

/-- `get_delay_reason_code` (src lines 300-322): first-match classification of
the free-text delay reason into the API enum code, by substring containment,
in the fixed source order. -/
def get_delay_reason_code (delay_reason : String) : String :=
  if containsSub delay_reason "해외" || containsSub delay_reason "현지" ||
      containsSub delay_reason "배송중" then
    "OVERSEA_DELIVERY"
  else if containsSub delay_reason "주문제작" || containsSub delay_reason "제작" then
    "CUSTOM_BUILD"
  else if containsSub delay_reason "예약" then
    "RESERVED_DISPATCH"
  else if containsSub delay_reason "고객" || containsSub delay_reason "구매자" ||
      containsSub delay_reason "요청" then
    "CUSTOMER_REQUEST"
  else if containsSub delay_reason "상품" || containsSub delay_reason "준비" ||
      containsSub delay_reason "재고" then
    "PRODUCT_PREPARE"
  else
    "ETC"

/-- The six valid enum codes listed in the source docstring. -/
def reasonCodes : List String :=
  ["CUSTOM_BUILD", "RESERVED_DISPATCH", "ETC", "PRODUCT_PREPARE",
   "OVERSEA_DELIVERY", "CUSTOMER_REQUEST"]

/-- Order-ID extraction from the text area (src lines 433-435):
`[S(x) for x in order_input.replace(",", "\n").split("\n") if S(x)]`. -/
def parse_order_ids (order_input : String) : List String :=
  (((splitOnChar '\n' (replaceCommaNewline order_input))).map S).filter
    (fun x => x ≠ "")

/-- One seller account row loaded from the credential sheet
("마켓정보"): `{store_name, client_id, client_secret}`. -/
structure Market where
  store_name : String
  client_id : String
  client_secret : String
deriving DecidableEq, Repr

/-- `load_markets` (src lines 212-251), the part after the sheet fetch: walk
the rows below the header (`values[1:]`), keep rows with at least 3 cells
whose first three stripped cells are all non-empty, and collect them in row
order.  The sheet is modelled as its cell values. -/
def load_markets (values : List (List String)) : List Market :=
  (values.drop 1).filterMap (fun row =>
    if row.length ≥ 3 then
      let store_name := S (row.getD 0 "")
      let client_id := S (row.getD 1 "")
      let client_secret := S (row.getD 2 "")
      if store_name ≠ "" ∧ client_id ≠ "" ∧ client_secret ≠ "" then
        some ⟨store_name, client_id, client_secret⟩
      else none
    else none)

/-- Form body of the token request (src lines 194-200). -/
structure TokenRequest where
  grant_type : String
  client_id : String
  timestamp : Nat
  client_secret_sign : String
  ty : String
deriving DecidableEq, Repr

/-- Token endpoint response: HTTP status plus the result of `r.json()`
(`none` = the body is not JSON, so `.json()` raises) holding the optional
`access_token` field. -/
structure TokenResponse where
  status : Nat
  parsed : Option (Option String)
deriving DecidableEq, Repr

/-- Body of the order-query request (src lines 261-267): bearer token plus
`{"productOrderIds": [product_order_id]}`. -/
structure QueryRequest where
  token : String
  productOrderIds : List String
deriving DecidableEq, Repr

/-- `r.json()` of the order-query endpooint: the `data` array
(`response.get("data", [])`; a missing field is the empty list).  The
elements are opaque order payloads, never inspected by the app. -/
structure QueryJson where
  data : List String
deriving DecidableEq, Repr

/-- Order-query endpoint response: HTTP status plus the parsed body
(`none` = `.json()` raises). -/
structure QueryResponse where
  status : Nat
  parsed : Option QueryJson
deriving DecidableEq, Repr

/-- Body of the delay-dispatch request (src lines 329-344): bearer token,
the order ID in the URL, and the JSON payload fields. -/
structure DelayRequest where
  token : String
  product_order_id : String
  dispatchDueDate : String
  delayedDispatchReason : String
  dispatchDelayedDetailedReason : String
deriving DecidableEq, Repr

/-- Delay-dispatch endpoint response: HTTP status, raw body text (`r.text`),
and the `message` field of the parsed body: `none` = body is not JSON
(`r.json()` raises), `some none` = JSON without a string `"message"` field,
`some (some m)` = `"message": m`. -/
structure DelayResponse where
  status : Nat
  text : String
  jsonMessage : Option (Option String)
deriving DecidableEq, Repr

/-- `{"success": bool, "message": str}` dict returned by
`execute_delay_dispatch`. -/
structure DelayOutcome where
  success : Bool
  message : String
deriving DecidableEq, Repr

/-- The world the app talks to: the current millisecond clock, the
bcrypt-plus-base64 signing primitive of `sign_client_secret` (src lines
186-189, kept abstract), and the three HTTP endpoints.  The signing step can
raise: `bcrypt.hashpw` (src line 188) raises ValueError for any
`client_secret` that is not a valid bcrypt salt, modelled as `Except.error`
carrying `str(e)`.  Each endpoint either raises a transport exception
(`Except.error` with `str(e)`) or returns a response. -/
structure Env where
  now : Nat
  sign : String → String → Nat → Except String String
  tokenEndpoint : TokenRequest → Except String TokenResponse
  queryEndpoint : QueryRequest → Except String QueryResponse
  delayEndpoint : DelayRequest → Except String DelayResponse

/-- Whether `sign_client_secret` succeeds for these credentials under
`env` (that is, `client_secret` is a valid bcrypt salt). -/
def signOk (env : Env) (client_id client_secret : String) : Bool :=
  match env.sign client_id client_secret env.now with
  | .ok _ => true
  | .error _ => false

/-- The form body `get_access_token` sends (src lines 193-200), given the
already computed `client_secret_sign` value `sig`. -/
def tokenRequest (env : Env) (client_id sig : String) : TokenRequest :=
  ⟨"client_credentials", client_id, env.now, sig, "SELF"⟩

/-- `get_access_token` (src lines 192-208): build the form body — the
`sign_client_secret` call at src line 198 sits in the dict literal, BEFORE
the `try` of src lines 202-207, so a signing ValueError propagates to the
caller (`Except.error`).  Then POST the credential grant; on HTTP 200
return the `access_token` field of the JSON body; on any non-200 status,
JSON-parse failure, or transport exception return `none` (the bare
`except: pass` swallows exceptions of the request only). -/
def get_access_token (env : Env) (client_id client_secret : String) :
    Except String (Option String) :=
  match env.sign client_id client_secret env.now with
  | .error e => .error e
  | .ok sig =>
    match env.tokenEndpoint (tokenRequest env client_id sig) with
    | .error _ => .ok none
    | .ok r =>
      if r.status = 200 then
        match r.parsed with
        | none => .ok none
        | some j => .ok j
      else .ok none

/-- `{market, token, order_data}` dict built by `check_order_in_market` on a
hit (src lines 275-279). -/
structure LocateResult where
  market : Market
  token : String
  order_data : QueryJson
deriving DecidableEq, Repr

/-- `check_order_in_market` (src lines 255-282): issue a token for the
market — the `get_access_token` call at src line 257 sits outside the
`try` of src lines 269-281, so a signing ValueError propagates
(`Except.error`).  The falsy check `if not token` at src line 258 returns
`None` for a missing token AND for an empty-string token, without sending
any query.  Otherwise POST the one-element `productOrderIds` query; a
populated result needs HTTP 200, a parseable body, and a non-empty `data`
array.  The second component of the payload is the trace of requests sent
to the order-query endpoint (empty = no query was made). -/
def check_order_in_market (env : Env) (market : Market)
    (product_order_id : String) :
    Except String (Option LocateResult × List QueryRequest) :=
  match get_access_token env market.client_id market.client_secret with
  | .error e => .error e
  | .ok tokenOpt =>
    match tokenOpt with
    | none => .ok (none, [])
    | some token =>
      if token = "" then .ok (none, [])
      else
        let req : QueryRequest := ⟨token, [product_order_id]⟩
        match env.queryEndpoint req with
        | .error _ => .ok (none, [req])
        | .ok r =>
          if r.status = 200 then
            match r.parsed with
            | none => .ok (none, [req])
            | some response =>
              if response.data ≠ [] then
                .ok (some ⟨market, token, response⟩, [req])
              else .ok (none, [req])
          else .ok (none, [req])

/-- `find_order_parallel` (src lines 285-297): probe every market, consume
completions in arrival order, return the first non-`none` probe result.
`arrival` is the nondeterministic completion order of the thread-pool
futures — a permutation of the submitted markets; the claims quantify over
it.  `future.result()` at src line 294 re-raises an exception raised inside
the probe (only the signing ValueError can escape it), modelled by
propagating the first `Except.error` met in arrival order. -/
def find_order_parallel (env : Env) (arrival : List Market)
    (product_order_id : String) : Except String (Option LocateResult) :=
  match arrival with
  | [] => .ok none
  | market :: rest =>
    match check_order_in_market env market product_order_id with
    | .error e => .error e
    | .ok (some res, _) => .ok (some res)
    | .ok (none, _) => find_order_parallel env rest product_order_id

/-- The ISO-8601 timestamp literal of src line 335:
`f"{dispatch_due_date}T23:59:59.000+09:00"`. -/
def isoDate (dispatch_due_date : String) : String :=
  dispatch_due_date ++ "T23:59:59.000+09:00"

/-- The request `execute_delay_dispatch` builds (src lines 329-344). -/
def delayRequest (token product_order_id dispatch_due_date delay_reason :
    String) : DelayRequest :=
  ⟨token, product_order_id, isoDate dispatch_due_date,
    get_delay_reason_code delay_reason, delay_reason⟩

/-- `execute_delay_dispatch` (src lines 325-358): one POST; HTTP 200 gives
a success outcome naming the reason code; non-200 gives a failure outcome
with the status code and the server message (the `message` field when the
body parses as JSON and has one, else the raw body text) cut to 150
characters; a transport exception gives a failure outcome with `str(e)`.
The second component is the trace of requests attempted. -/
def execute_delay_dispatch (env : Env) (token product_order_id
    dispatch_due_date delay_reason : String) :
    DelayOutcome × List DelayRequest :=
  let reason_code := get_delay_reason_code delay_reason
  let req := delayRequest token product_order_id dispatch_due_date delay_reason
  match env.delayEndpoint req with
  | .error e => (⟨false, "요청 오류: " ++ e⟩, [req])
  | .ok r =>
    if r.status = 200 then
      (⟨true, "발송지연 처리 완료 (" ++ reason_code ++ ")"⟩, [req])
    else
      let error_msg :=
        match r.jsonMessage with
        | some (some m) => m
        | some none => r.text
        | none => r.text
      (⟨false,
        "API 오류 (" ++ toString r.status ++ "): " ++ pyTake error_msg 150⟩,
       [req])

/-- One row of the results table (src lines 460-480); the fields stand for
the dict keys 상품주문번호, 마켓, 결과, 메시지 in that order. -/
structure ResultRow where
  order_id : String
  market_name : String
  result : String
  message : String
deriving DecidableEq, Repr

/-- One iteration of the per-order-ID loop (src lines 453-480): locate the
order across all markets; on a miss append the fixed not-found failure row
and `continue`; on a hit run the delay dispatch and append its outcome
row.  The loop body has no exception handler, so an exception re-raised by
the locate call (the signing ValueError) escapes the iteration
(`Except.error`). -/
def process_one (env : Env) (markets : List Market)
    (dispatch_date_str final_reason order_id : String) :
    Except String ResultRow :=
  match find_order_parallel env markets order_id with
  | .error e => .error e
  | .ok none =>
    .ok ⟨order_id, "-", "❌ 실패", "해당 상품주문번호를 찾을 수 없습니다."⟩
  | .ok (some found) =>
    let delay_result := (execute_delay_dispatch env found.token order_id
      dispatch_date_str final_reason).1
    .ok ⟨order_id, found.market.store_name,
      if delay_result.success then "✅ 성공" else "❌ 실패",
      delay_result.message⟩

/-- The `results` list built by the loop of src lines 453-480: one row
appended per order ID, in input order; an exception escaping an iteration
aborts the whole loop (and the report below it is never rendered), leaving
no outcome rows for the remaining IDs. -/
def process_all (env : Env) (markets : List Market)
    (dispatch_date_str final_reason : String) (order_ids : List String) :
    Except String (List ResultRow) :=
  match order_ids with
  | [] => .ok []
  | oid :: rest =>
    match process_one env markets dispatch_date_str final_reason oid with
    | .error e => .error e
    | .ok row =>
      match process_all env markets dispatch_date_str final_reason rest with
      | .error e => .error e
      | .ok rows => .ok (row :: rows)

/-! Concrete fixtures used to instantiate the theorems below. -/

/-- A market whose credentials work against `testEnv`. -/
def mGood : Market := ⟨"좋은마켓", "cid-good", "sec"⟩

/-- A market whose token endpoint call fails against `testEnv` (transport
error), so its token issuance always yields `none`. -/
def mBad : Market := ⟨"죽은마켓", "cid-err", "sec"⟩

/-- A market whose client_secret is not a valid bcrypt salt against
`testEnv`, so its signing step raises. -/
def mSalt : Market := ⟨"소금마켓", "cid-good", "bad-salt"⟩

/-- A market whose token issuance answers HTTP 200 with an empty-string
`access_token` against `testEnv`. -/
def mEmpty : Market := ⟨"빈토큰마켓", "cid-empty", "sec"⟩

/-- A deterministic test world: signing raises on the invalid salt
`bad-salt` and succeeds otherwise; `cid-good` gets token `tok-1`,
`cid-empty` gets HTTP 200 with an empty-string token, `cid-denied` gets
HTTP 403, anything else a transport error; the query endpoint reports
order `ord-1` owned by the `tok-1` holder, would report ownership to the
empty-string token, and returns an empty `data` array otherwise; the delay
endpoint accepts `ord-1`, rejects `ord-404` with a JSON error body, and
answers anything else with a plain-text 500. -/
def testEnv : Env where
  now := 1700000000000
  sign := fun cid secret ts =>
    if secret = "bad-salt" then .error "Invalid salt"
    else .ok (cid ++ "|" ++ toString ts ++ "|signed")
  tokenEndpoint := fun req =>
    if req.client_id = "cid-good" then .ok ⟨200, some (some "tok-1")⟩
    else if req.client_id = "cid-empty" then .ok ⟨200, some (some "")⟩
    else if req.client_id = "cid-denied" then .ok ⟨403, some none⟩
    else .error "connection refused"
  queryEndpoint := fun req =>
    if req.token = "tok-1" ∧ req.productOrderIds = ["ord-1"] then
      .ok ⟨200, some ⟨["order-payload-1"]⟩⟩
    else if req.token = "" then .ok ⟨200, some ⟨["ghost-payload"]⟩⟩
    else .ok ⟨200, some ⟨[]⟩⟩
  delayEndpoint := fun req =>
    if req.product_order_id = "ord-1" then .ok ⟨200, "", some none⟩
    else if req.product_order_id = "ord-404" then
      .ok ⟨404, "not found body", some (some "not found")⟩
    else .ok ⟨500, "Internal Server Error", none⟩

/-- A credential sheet whose two data rows share a store name. -/
def dupSheet : List (List String) :=
  [["마켓명", "client_id", "client_secret"],
   ["A마켓", "id1", "secret1"],
   ["A마켓", "id2", "secret2"]]

/-- A credential sheet with pairwise distinct store names. -/
def okSheet : List (List String) :=
  [["마켓명", "client_id", "client_secret"],
   ["A마켓", "id1", "secret1"],
   ["B마켓", "id2", "secret2"]]

/-! Helper lemmas shared by the claim theorems. -/

/-- A string is contained in any concatenation that ends with it. -/
theorem containsSub_append_suffix (a b : String) :
    containsSub (a ++ b) b = true := by
  simp only [containsSub, decide_eq_true_eq, String.toList, String.data_append]
  exact (List.suffix_append a.data b.data).isInfix

/-- Containment is stable under appending on the right. -/
theorem containsSub_append_right (x d b : String)
    (h : containsSub x b = true) :
    containsSub (x ++ d) b = true := by
  simp only [containsSub, decide_eq_true_eq, String.toList,
    String.data_append] at h ⊢
  exact h.trans (List.prefix_append x.data d.data).isInfix

/-- Mapping over a `filterMap` whose hits agree with `g` on their origin
gives a sublist of mapping `g` over the whole list. -/
theorem map_filterMap_sublist {α β γ : Type} (f : α → Option β) (g : α → γ)
    (h : β → γ) (l : List α) (hfg : ∀ a b, f a = some b → h b = g a) :
    List.Sublist ((l.filterMap f).map h) (l.map g) := by
  induction l with
  | nil => simp
  | cons a l ih =>
    cases hfa : f a with
    | none => simpa [List.filterMap_cons, hfa] using ih.cons (g a)
    | some b =>
      simpa [List.filterMap_cons, hfa, hfg a b hfa] using ih.cons₂ (g a)

/-- A populated probe result carries the market that was probed. -/
theorem check_order_in_market_market_eq (env : Env) (market : Market)
    (oid : String) (out : Option LocateResult × List QueryRequest)
    (res : LocateResult)
    (hout : check_order_in_market env market oid = .ok out)
    (h : out.1 = some res) :
    res.market = market := by
  cases htok : get_access_token env market.client_id market.client_secret with
  | error e => simp [check_order_in_market, htok] at hout
  | ok tokenOpt =>
    cases tokenOpt with
    | none =>
      simp [check_order_in_market, htok] at hout
      rw [← hout] at h
      simp at h
    | some token =>
      by_cases ht : token = ""
      · simp [check_order_in_market, htok, ht] at hout
        rw [← hout] at h
        simp at h
      · cases hq : env.queryEndpoint ⟨token, [oid]⟩ with
        | error e =>
          simp [check_order_in_market, htok, ht, hq] at hout
          rw [← hout] at h
          simp at h
        | ok r =>
          by_cases hs : r.status = 200
          · cases hp : r.parsed with
            | none =>
              simp [check_order_in_market, htok, ht, hq, hs, hp] at hout
              rw [← hout] at h
              simp at h
            | some response =>
              by_cases hd : response.data = []
              · simp [check_order_in_market, htok, ht, hq, hs, hp, hd]
                  at hout
                rw [← hout] at h
                simp at h
              · simp [check_order_in_market, htok, ht, hq, hs, hp, hd]
                  at hout
                rw [← hout] at h
                simp at h
                rw [← h]
          · simp [check_order_in_market, htok, ht, hq, hs] at hout
            rw [← hout] at h
            simp at h

/-- When the signing step succeeds, `get_access_token` returns (it cannot
raise). -/
theorem get_access_token_ok (env : Env) (client_id client_secret : String)
    (h : signOk env client_id client_secret = true) :
    ∃ t, get_access_token env client_id client_secret = .ok t := by
  cases hs : env.sign client_id client_secret env.now with
  | error e => simp [signOk, hs] at h
  | ok sig =>
    cases he : env.tokenEndpoint (tokenRequest env client_id sig) with
    | error e => exact ⟨none, by simp [get_access_token, hs, he]⟩
    | ok r =>
      by_cases hr : r.status = 200
      · cases hp : r.parsed with
        | none => exact ⟨none, by simp [get_access_token, hs, he, hr, hp]⟩
        | some j => exact ⟨j, by simp [get_access_token, hs, he, hr, hp]⟩
      · exact ⟨none, by simp [get_access_token, hs, he, hr]⟩

/-- When the signing step succeeds, the probe returns (it cannot raise). -/
theorem check_order_in_market_ok (env : Env) (market : Market)
    (oid : String)
    (h : signOk env market.client_id market.client_secret = true) :
    ∃ out, check_order_in_market env market oid = .ok out := by
  obtain ⟨t, ht⟩ :=
    get_access_token_ok env market.client_id market.client_secret h
  cases t with
  | none => exact ⟨(none, []), by simp [check_order_in_market, ht]⟩
  | some token =>
    by_cases hemp : token = ""
    · exact ⟨(none, []), by simp [check_order_in_market, ht, hemp]⟩
    · cases hq : env.queryEndpoint ⟨token, [oid]⟩ with
      | error e =>
        exact ⟨(none, [⟨token, [oid]⟩]),
          by simp [check_order_in_market, ht, hemp, hq]⟩
      | ok r =>
        by_cases hs : r.status = 200
        · cases hp : r.parsed with
          | none =>
            exact ⟨(none, [⟨token, [oid]⟩]),
              by simp [check_order_in_market, ht, hemp, hq, hs, hp]⟩
          | some response =>
            by_cases hd : response.data = []
            · exact ⟨(none, [⟨token, [oid]⟩]),
                by simp [check_order_in_market, ht, hemp, hq, hs, hp, hd]⟩
            · exact ⟨(some ⟨market, token, response⟩, [⟨token, [oid]⟩]),
                by simp [check_order_in_market, ht, hemp, hq, hs, hp, hd]⟩
        · exact ⟨(none, [⟨token, [oid]⟩]),
            by simp [check_order_in_market, ht, hemp, hq, hs]⟩

/-- When the signing step succeeds for every probed market, the locate
returns (it cannot raise). -/
theorem find_order_parallel_ok (env : Env) (oid : String)
    (arrival : List Market)
    (h : ∀ m ∈ arrival, signOk env m.client_id m.client_secret = true) :
    ∃ o, find_order_parallel env arrival oid = .ok o := by
  induction arrival with
  | nil => exact ⟨none, rfl⟩
  | cons a l ih =>
    obtain ⟨out, hout⟩ :=
      check_order_in_market_ok env a oid (h a (List.mem_cons_self a l))
    obtain ⟨o1, reqs⟩ := out
    cases o1 with
    | some res =>
      exact ⟨some res, by simp [find_order_parallel, hout]⟩
    | none =>
      obtain ⟨o, ho⟩ := ih (fun m hm => h m (List.mem_cons_of_mem a hm))
      exact ⟨o, by simp [find_order_parallel, hout, ho]⟩

/-- When the signing step succeeds for every probed market, each loop
iteration yields exactly one row carrying its order ID. -/
theorem process_one_ok (env : Env) (markets : List Market)
    (d r oid : String)
    (h : ∀ m ∈ markets, signOk env m.client_id m.client_secret = true) :
    ∃ row, process_one env markets d r oid = .ok row ∧
      row.order_id = oid := by
  obtain ⟨o, ho⟩ := find_order_parallel_ok env oid markets h
  cases o with
  | none =>
    exact ⟨⟨oid, "-", "❌ 실패", "해당 상품주문번호를 찾을 수 없습니다."⟩,
      by simp [process_one, ho], rfl⟩
  | some found =>
    refine ⟨⟨oid, found.market.store_name,
      if (execute_delay_dispatch env found.token oid d r).1.success
        then "✅ 성공" else "❌ 실패",
      (execute_delay_dispatch env found.token oid d r).1.message⟩,
      by simp [process_one, ho], rfl⟩

/-! Claim theorems. -/

/-- C2: `get_delay_reason_code` is a pure total function evaluating the
fixed rule table first-match: any input containing a rule-1 substring
(해외 / 현지 / 배송중) classifies as OVERSEA_DELIVERY regardless of what
else (e.g. rule-4 customer terms) it contains, and every input maps to one
of the six enum codes, with ETC as the fallback when no rule matches. -/
theorem get_delay_reason_code_priority_total :
    (∀ s, (containsSub s "해외" = true ∨ containsSub s "현지" = true ∨
        containsSub s "배송중" = true) →
      get_delay_reason_code s = "OVERSEA_DELIVERY") ∧
    (∀ s, get_delay_reason_code s ∈ reasonCodes) ∧
    (∀ s, containsSub s "해외" = false → containsSub s "현지" = false →
      containsSub s "배송중" = false → containsSub s "주문제작" = false →
      containsSub s "제작" = false → containsSub s "예약" = false →
      containsSub s "고객" = false → containsSub s "구매자" = false →
      containsSub s "요청" = false → containsSub s "상품" = false →
      containsSub s "준비" = false → containsSub s "재고" = false →
      get_delay_reason_code s = "ETC") := by
  refine ⟨?_, ?_, ?_⟩
  · intro s h
    unfold get_delay_reason_code
    rcases h with h | h | h <;> simp [h]
  · intro s
    unfold get_delay_reason_code reasonCodes
    repeat' split
    all_goals simp
  · intro s h1 h2 h3 h4 h5 h6 h7 h8 h9 h10 h11 h12
    unfold get_delay_reason_code
    simp [h1, h2, h3, h4, h5, h6, h7, h8, h9, h10, h11, h12]

/-- Witness for C2: "해외 고객요청" contains both the rule-1 term 해외 and
the rule-4 terms 고객/요청, and classifies as OVERSEA_DELIVERY. -/
theorem get_delay_reason_code_priority_total_witness :
    containsSub "해외 고객요청" "해외" = true ∧
    containsSub "해외 고객요청" "고객" = true ∧
    get_delay_reason_code "해외 고객요청" = "OVERSEA_DELIVERY" :=
  ⟨by decide, by decide,
    get_delay_reason_code_priority_total.1 "해외 고객요청"
      (Or.inl (by decide))⟩

/-- Counterexample to C3: the splitting code performs no deduplication, so
the input "1001,1001" yields the ID "1001" twice, not once. -/
theorem parse_order_ids_keeps_duplicates :
    parse_order_ids "1001,1001" = ["1001", "1001"] ∧
    ¬ (parse_order_ids "1001,1001").Nodup := by
  constructor
  · decide
  · decide

/-- C3 (amended): splitting on newlines and commas yields the stripped
segments in input order with blank segments removed but duplicates
preserved; the input "1001, 1002\n1003" yields exactly
["1001", "1002", "1003"]. -/
theorem parse_order_ids_spec :
    parse_order_ids "1001, 1002\n1003" = ["1001", "1002", "1003"] ∧
    (∀ s x, x ∈ parse_order_ids s → x ≠ "") ∧
    parse_order_ids "1001,1001" = ["1001", "1001"] := by
  refine ⟨by decide, ?_, by decide⟩
  intro s x hx
  unfold parse_order_ids at hx
  have := List.of_mem_filter hx
  simpa using this

/-- Witness for C3 (amended): "1001" is a parsed ID of "1001, 1002\n1003"
and is non-blank. -/
theorem parse_order_ids_spec_witness :
    "1001" ∈ parse_order_ids "1001, 1002\n1003" ∧ ("1001" : String) ≠ "" :=
  ⟨by decide, parse_order_ids_spec.2.1 "1001, 1002\n1003" "1001" (by decide)⟩

/-- Counterexample to C7: a `client_secret` that is not a valid bcrypt
salt makes `sign_client_secret` raise — the call at src line 198 precedes
the `try` of src lines 202-207 — and the ValueError propagates out of
`get_access_token` to its caller, so "for every client_id/client_secret
input, the operation never propagates an exception" is false. -/
theorem get_access_token_raises_on_bad_salt :
    testEnv.sign "cid-good" "bad-salt" testEnv.now = .error "Invalid salt" ∧
    get_access_token testEnv "cid-good" "bad-salt" =
      .error "Invalid salt" :=
  ⟨rfl, rfl⟩

/-- C7 (amended): provided the bcrypt signing step succeeds,
`get_access_token` returns the `access_token` field of the parsed body on
HTTP 200, and `none` on any non-200 status or transport failure, raising
nothing; when signing raises (a `client_secret` that is not a valid bcrypt
salt), the exception propagates to the caller, because the signing call
precedes the try block. -/
theorem get_access_token_spec (env : Env) (client_id client_secret : String) :
    (∀ sig r j,
        env.sign client_id client_secret env.now = .ok sig →
        env.tokenEndpoint (tokenRequest env client_id sig) = .ok r →
        r.status = 200 → r.parsed = some j →
        get_access_token env client_id client_secret = .ok j) ∧
    (∀ sig r,
        env.sign client_id client_secret env.now = .ok sig →
        env.tokenEndpoint (tokenRequest env client_id sig) = .ok r →
        ¬ r.status = 200 →
        get_access_token env client_id client_secret = .ok none) ∧
    (∀ sig e,
        env.sign client_id client_secret env.now = .ok sig →
        env.tokenEndpoint (tokenRequest env client_id sig) = .error e →
        get_access_token env client_id client_secret = .ok none) ∧
    (∀ e,
        env.sign client_id client_secret env.now = .error e →
        get_access_token env client_id client_secret = .error e) := by
  refine ⟨?_, ?_, ?_, ?_⟩
  · intro sig r j hsig h hs hp
    simp [get_access_token, hsig, h, hs, hp]
  · intro sig r hsig h hs
    simp [get_access_token, hsig, h, hs]
  · intro sig e hsig h
    simp [get_access_token, hsig, h]
  · intro e hsig
    simp [get_access_token, hsig]

/-- Witness for C7 (amended): against `testEnv`, the working credentials
sign successfully and yield the token of the 200 response, and the
credentials whose token request errors yield `none`. -/
theorem get_access_token_spec_witness :
    testEnv.sign "cid-good" "sec" testEnv.now =
      .ok "cid-good|1700000000000|signed" ∧
    testEnv.tokenEndpoint
      (tokenRequest testEnv "cid-good" "cid-good|1700000000000|signed") =
      .ok ⟨200, some (some "tok-1")⟩ ∧
    get_access_token testEnv "cid-good" "sec" = .ok (some "tok-1") ∧
    get_access_token testEnv "cid-err" "sec" = .ok none :=
  ⟨rfl, rfl,
   (get_access_token_spec testEnv "cid-good" "sec").1
     "cid-good|1700000000000|signed" ⟨200, some (some "tok-1")⟩
     (some "tok-1") rfl rfl rfl rfl,
   (get_access_token_spec testEnv "cid-err" "sec").2.2.1
     "cid-err|1700000000000|signed" "connection refused" rfl rfl⟩

/-- Counterexample to C6: token issuance can succeed with an empty-string
token (HTTP 200, `access_token` "") and the query endpoint stands ready to
answer 200 with non-empty data, yet the probe returns `none` without
sending any query, because the falsy check `if not token` at src line 258
also catches the empty string — so "populated if and only if token
issuance succeeds, 200, and non-empty data" is false as stated. -/
theorem check_order_in_market_empty_token :
    get_access_token testEnv mEmpty.client_id mEmpty.client_secret =
      .ok (some "") ∧
    testEnv.queryEndpoint ⟨"", ["ord-9"]⟩ =
      .ok ⟨200, some ⟨["ghost-payload"]⟩⟩ ∧
    check_order_in_market testEnv mEmpty "ord-9" = .ok (none, []) :=
  ⟨rfl, rfl, rfl⟩

/-- C6 (amended): `check_order_in_market` yields a populated result exactly
when token issuance yields a NON-EMPTY token, the order-query endpoint
answers HTTP 200 with a parseable body, and its `data` array is non-empty;
when token issuance yields `none` — or the empty string, which the falsy
check treats alike — it returns `none` with an empty query trace (no query
is sent); and a 200 answer with an empty `data` array is a plain negative
(`none`), not an error. -/
theorem check_order_in_market_spec (env : Env) (market : Market)
    (oid : String) :
    (∀ out res, check_order_in_market env market oid = .ok out →
      (out.1 = some res ↔
        ∃ token r j,
          get_access_token env market.client_id market.client_secret =
            .ok (some token) ∧
          token ≠ "" ∧
          env.queryEndpoint ⟨token, [oid]⟩ = .ok r ∧ r.status = 200 ∧
          r.parsed = some j ∧ j.data ≠ [] ∧ res = ⟨market, token, j⟩)) ∧
    (∀ t, get_access_token env market.client_id market.client_secret =
        .ok t →
      (t = none ∨ t = some "") →
      check_order_in_market env market oid = .ok (none, [])) ∧
    (∀ token r j,
        get_access_token env market.client_id market.client_secret =
          .ok (some token) →
        token ≠ "" →
        env.queryEndpoint ⟨token, [oid]⟩ = .ok r → r.status = 200 →
        r.parsed = some j → j.data = [] →
        check_order_in_market env market oid =
          .ok (none, [⟨token, [oid]⟩])) := by
  refine ⟨?_, ?_, ?_⟩
  · intro out res hout
    constructor
    · intro h
      cases htok : get_access_token env market.client_id market.client_secret with
      | error e => simp [check_order_in_market, htok] at hout
      | ok tokenOpt =>
        cases tokenOpt with
        | none =>
          simp [check_order_in_market, htok] at hout
          rw [← hout] at h
          simp at h
        | some token =>
          by_cases hemp : token = ""
          · simp [check_order_in_market, htok, hemp] at hout
            rw [← hout] at h
            simp at h
          · cases hq : env.queryEndpoint ⟨token, [oid]⟩ with
            | error e =>
              simp [check_order_in_market, htok, hemp, hq] at hout
              rw [← hout] at h
              simp at h
            | ok r =>
              by_cases hs : r.status = 200
              · cases hp : r.parsed with
                | none =>
                  simp [check_order_in_market, htok, hemp, hq, hs, hp]
                    at hout
                  rw [← hout] at h
                  simp at h
                | some j =>
                  by_cases hd : j.data = []
                  · simp [check_order_in_market, htok, hemp, hq, hs, hp,
                      hd] at hout
                    rw [← hout] at h
                    simp at h
                  · simp [check_order_in_market, htok, hemp, hq, hs, hp,
                      hd] at hout
                    rw [← hout] at h
                    simp at h
                    exact ⟨token, r, j, rfl, hemp, hq, hs, hp, hd, h.symm⟩
              · simp [check_order_in_market, htok, hemp, hq, hs] at hout
                rw [← hout] at h
                simp at h
    · rintro ⟨token, r, j, htok, hemp, hq, hs, hp, hd, rfl⟩
      have : check_order_in_market env market oid =
          .ok (some ⟨market, token, j⟩, [⟨token, [oid]⟩]) := by
        simp [check_order_in_market, htok, hemp, hq, hs, hp, hd]
      rw [this] at hout
      injection hout with hout
      rw [← hout]
  · intro t htok hfalsy
    rcases hfalsy with h | h <;> subst h <;>
      simp [check_order_in_market, htok]
  · intro token r j htok hemp hq hs hp hd
    simp [check_order_in_market, htok, hemp, hq, hs, hp, hd]

/-- Witness for C6 (amended): against `testEnv`, the market with failing
token issuance probes to `none` with an empty query trace, and the owning
market probes to a populated result. -/
theorem check_order_in_market_spec_witness :
    get_access_token testEnv mBad.client_id mBad.client_secret = .ok none ∧
    check_order_in_market testEnv mBad "ord-1" = .ok (none, []) ∧
    check_order_in_market testEnv mGood "ord-1" =
      .ok (some ⟨mGood, "tok-1", ⟨["order-payload-1"]⟩⟩,
        [⟨"tok-1", ["ord-1"]⟩]) ∧
    ((some ⟨mGood, "tok-1", ⟨["order-payload-1"]⟩⟩,
      [⟨"tok-1", ["ord-1"]⟩]) :
      Option LocateResult × List QueryRequest).1 =
      some ⟨mGood, "tok-1", ⟨["order-payload-1"]⟩⟩ :=
  ⟨rfl,
   (check_order_in_market_spec testEnv mBad "ord-1").2.1 none rfl
     (Or.inl rfl),
   rfl,
   ((check_order_in_market_spec testEnv mGood "ord-1").1
     (some ⟨mGood, "tok-1", ⟨["order-payload-1"]⟩⟩,
      [⟨"tok-1", ["ord-1"]⟩])
     ⟨mGood, "tok-1", ⟨["order-payload-1"]⟩⟩ rfl).mpr
     ⟨"tok-1", ⟨200, some ⟨["order-payload-1"]⟩⟩, ⟨["order-payload-1"]⟩,
      rfl, by decide, rfl, rfl, rfl, by decide, rfl⟩⟩

/-- C1: for any arrival order of the probed accounts, if exactly one
account's probe yields a positive result then `find_order_parallel` returns
that result and its account is the owner; if every probe yields `none` (in
particular for accounts whose token issuance fails, whose probe always
yields `none` without querying) the locator returns `none`. -/
theorem find_order_parallel_spec (env : Env) (oid : String) :
    (∀ arrival owner res,
        owner ∈ arrival →
        (∃ reqs, check_order_in_market env owner oid = .ok (some res, reqs)) →
        (∀ m ∈ arrival, m ≠ owner →
          ∃ reqs, check_order_in_market env m oid = .ok (none, reqs)) →
        find_order_parallel env arrival oid = .ok (some res) ∧
        res.market = owner) ∧
    (∀ arrival,
        (∀ m ∈ arrival, ∃ reqs,
          check_order_in_market env m oid = .ok (none, reqs)) →
        find_order_parallel env arrival oid = .ok none) ∧
    (∀ m, get_access_token env m.client_id m.client_secret = .ok none →
        check_order_in_market env m oid = .ok (none, [])) := by
  refine ⟨?_, ?_, ?_⟩
  · intro arrival
    induction arrival with
    | nil => intro owner res hmem; simp at hmem
    | cons a l ih =>
      intro owner res hmem hchk hothers
      by_cases ha : a = owner
      · subst ha
        obtain ⟨reqs, hchk⟩ := hchk
        exact ⟨by simp [find_order_parallel, hchk],
          check_order_in_market_market_eq env a oid (some res, reqs) res
            hchk rfl⟩
      · obtain ⟨reqs, hanone⟩ := hothers a (List.mem_cons_self a l) ha
        have howner : owner ∈ l := by
          rcases List.mem_cons.mp hmem with h | h
          · exact absurd h.symm ha
          · exact h
        have hrec := ih owner res howner hchk
          (fun m hm hne => hothers m (List.mem_cons_of_mem a hm) hne)
        refine ⟨?_, hrec.2⟩
        simpa [find_order_parallel, hanone] using hrec.1
  · intro arrival hall
    induction arrival with
    | nil => simp [find_order_parallel]
    | cons a l ih =>
      obtain ⟨reqs, hanone⟩ := hall a (List.mem_cons_self a l)
      have := ih (fun m hm => hall m (List.mem_cons_of_mem a hm))
      simpa [find_order_parallel, hanone] using this
  · intro m h
    simp [check_order_in_market, h]

/-- Witness for C1: against `testEnv`, with the token-failing market probed
first, the locator still returns the result owned by the working market. -/
theorem find_order_parallel_spec_witness :
    mGood ∈ [mBad, mGood] ∧
    check_order_in_market testEnv mGood "ord-1" =
      .ok (some ⟨mGood, "tok-1", ⟨["order-payload-1"]⟩⟩,
        [⟨"tok-1", ["ord-1"]⟩]) ∧
    find_order_parallel testEnv [mBad, mGood] "ord-1" =
      .ok (some ⟨mGood, "tok-1", ⟨["order-payload-1"]⟩⟩) :=
  ⟨by decide, rfl,
   ((find_order_parallel_spec testEnv "ord-1").1 [mBad, mGood] mGood
     ⟨mGood, "tok-1", ⟨["order-payload-1"]⟩⟩ (by decide)
     ⟨[⟨"tok-1", ["ord-1"]⟩], rfl⟩
     (by
       intro m hm hne
       rcases List.mem_cons.mp hm with h | h
       · subst h
         exact ⟨[], rfl⟩
       · exact absurd (List.mem_singleton.mp h) hne)).1⟩

/-- C5: `execute_delay_dispatch` always returns a `DelayOutcome` (it is a
total function, so it never raises): HTTP 200 gives success with a message
containing the classified reason code; a non-200 status gives failure with
a message containing the status code and the server message cut to 150
characters; a transport exception gives failure with the exception text;
and the request trace has length one in every case. -/
theorem execute_delay_dispatch_outcomes (env : Env)
    (token oid due reason : String) :
    (∀ r, env.delayEndpoint (delayRequest token oid due reason) = .ok r →
        r.status = 200 →
        (execute_delay_dispatch env token oid due reason).1 =
          ⟨true, "발송지연 처리 완료 (" ++ get_delay_reason_code reason ++
            ")"⟩ ∧
        containsSub (execute_delay_dispatch env token oid due reason).1.message
          (get_delay_reason_code reason) = true) ∧
    (∀ r m, env.delayEndpoint (delayRequest token oid due reason) = .ok r →
        ¬ r.status = 200 → r.jsonMessage = some (some m) →
        (execute_delay_dispatch env token oid due reason).1 =
          ⟨false, "API 오류 (" ++ toString r.status ++ "): " ++
            pyTake m 150⟩ ∧
        containsSub (execute_delay_dispatch env token oid due reason).1.message
          (toString r.status) = true ∧
        containsSub (execute_delay_dispatch env token oid due reason).1.message
          (pyTake m 150) = true) ∧
    (∀ e, env.delayEndpoint (delayRequest token oid due reason) = .error e →
        (execute_delay_dispatch env token oid due reason).1 =
          ⟨false, "요청 오류: " ++ e⟩) ∧
    (execute_delay_dispatch env token oid due reason).2.length = 1 := by
  refine ⟨?_, ?_, ?_, ?_⟩
  · intro r h hs
    have hout : (execute_delay_dispatch env token oid due reason).1 =
        ⟨true, "발송지연 처리 완료 (" ++ get_delay_reason_code reason ++
          ")"⟩ := by
      simp [execute_delay_dispatch, h, hs]
    refine ⟨hout, ?_⟩
    rw [hout]
    exact containsSub_append_right _ ")" _
      (containsSub_append_suffix "발송지연 처리 완료 ("
        (get_delay_reason_code reason))
  · intro r m h hs hm
    have hout : (execute_delay_dispatch env token oid due reason).1 =
        ⟨false, "API 오류 (" ++ toString r.status ++ "): " ++
          pyTake m 150⟩ := by
      simp [execute_delay_dispatch, h, hs, hm]
    refine ⟨hout, ?_, ?_⟩
    · rw [hout]
      exact containsSub_append_right _ (pyTake m 150) _
        (containsSub_append_right _ "): " _
          (containsSub_append_suffix "API 오류 (" (toString r.status)))
    · rw [hout]
      exact containsSub_append_suffix _ (pyTake m 150)
  · intro e h
    simp [execute_delay_dispatch, h]
  · cases h : env.delayEndpoint (delayRequest token oid due reason) with
    | error e => simp [execute_delay_dispatch, h]
    | ok r =>
      by_cases hs : r.status = 200 <;>
        simp [execute_delay_dispatch, h, hs]

/-- Witness for C5: against `testEnv`, order `ord-1` gets the 200 success
outcome and order `ord-404` gets the 404 failure outcome carrying the
server's "not found" message. -/
theorem execute_delay_dispatch_outcomes_witness :
    (execute_delay_dispatch testEnv "tok-1" "ord-1" "2025-12-31"
      "해외배송으로 인한 지연").1 =
      ⟨true, "발송지연 처리 완료 (" ++
        get_delay_reason_code "해외배송으로 인한 지연" ++ ")"⟩ ∧
    (execute_delay_dispatch testEnv "tok-1" "ord-404" "2025-12-31"
      "기타 사유").1 =
      ⟨false, "API 오류 (" ++ toString (404 : Nat) ++ "): " ++
        pyTake "not found" 150⟩ :=
  ⟨((execute_delay_dispatch_outcomes testEnv "tok-1" "ord-1" "2025-12-31"
      "해외배송으로 인한 지연").1 ⟨200, "", some none⟩ rfl rfl).1,
   ((execute_delay_dispatch_outcomes testEnv "tok-1" "ord-404" "2025-12-31"
      "기타 사유").2.1 ⟨404, "not found body", some (some "not found")⟩
      "not found" rfl (by decide) rfl).1⟩

/-- C10: on a non-200 response whose body is not JSON or whose JSON has no
`message` field, the failure message embeds the raw body text (cut to 150
characters) after the status code, and the function returns a failure
outcome rather than raising. -/
theorem execute_delay_dispatch_unparseable (env : Env)
    (token oid due reason : String) :
    ∀ r, env.delayEndpoint (delayRequest token oid due reason) = .ok r →
      ¬ r.status = 200 →
      (r.jsonMessage = none ∨ r.jsonMessage = some none) →
      (execute_delay_dispatch env token oid due reason).1 =
        ⟨false, "API 오류 (" ++ toString r.status ++ "): " ++
          pyTake r.text 150⟩ := by
  intro r h hs hm
  rcases hm with hm | hm <;> simp [execute_delay_dispatch, h, hs, hm]

/-- Witness for C10: against `testEnv`, order `ord-500` answers 500 with a
plain-text body, and the failure message embeds that body text. -/
theorem execute_delay_dispatch_unparseable_witness :
    testEnv.delayEndpoint
      (delayRequest "tok-1" "ord-500" "2025-12-31" "기타 사유") =
      .ok ⟨500, "Internal Server Error", none⟩ ∧
    (execute_delay_dispatch testEnv "tok-1" "ord-500" "2025-12-31"
      "기타 사유").1 =
      ⟨false, "API 오류 (" ++ toString (500 : Nat) ++ "): " ++
        pyTake "Internal Server Error" 150⟩ :=
  ⟨rfl,
   execute_delay_dispatch_unparseable testEnv "tok-1" "ord-500" "2025-12-31"
     "기타 사유" ⟨500, "Internal Server Error", none⟩ rfl (by decide)
     (Or.inl rfl)⟩

/-- C8: the `dispatchDueDate` carried by the one request
`execute_delay_dispatch` sends is exactly the due-date string followed by
"T23:59:59.000+09:00"; in particular "2025-12-31" produces the literal
"2025-12-31T23:59:59.000+09:00". -/
theorem dispatch_due_date_format :
    (∀ (env : Env) (token oid due reason : String),
      (execute_delay_dispatch env token oid due reason).2.map
        DelayRequest.dispatchDueDate = [due ++ "T23:59:59.000+09:00"]) ∧
    isoDate "2025-12-31" = "2025-12-31T23:59:59.000+09:00" := by
  refine ⟨?_, rfl⟩
  intro env token oid due reason
  cases h : env.delayEndpoint (delayRequest token oid due reason) with
  | error e =>
    simp only [execute_delay_dispatch, h]
    simp [delayRequest, isoDate]
  | ok r =>
    by_cases hs : r.status = 200 <;>
      simp only [execute_delay_dispatch, h, hs] <;>
      simp [hs, delayRequest, isoDate]

/-- Counterexample to C4: an account whose `client_secret` is not a valid
bcrypt salt makes the signing ValueError escape `check_order_in_market`,
`future.result()` re-raises it in the unguarded main loop, and processing
aborts: two submitted order IDs produce no outcome rows at all, so "every
order ID yields exactly one outcome record and nothing throws past the
per-order-ID boundary" is false. -/
theorem process_all_crashes_on_bad_salt :
    process_all testEnv [mSalt] "2025-12-31" "기타 사유"
      ["ord-1", "ord-2"] = .error "Invalid salt" :=
  rfl

/-- C4 (amended): provided the bcrypt signing step succeeds for every
probed account — the signing ValueError is the one exception that escapes
the per-order-ID boundary and aborts the loop — processing produces
exactly one outcome row per submitted order ID, in input order, whatever
each locate or dispatch call does. -/
theorem process_all_one_row_per_id (env : Env) (markets : List Market)
    (dispatch_date_str final_reason : String) (order_ids : List String)
    (hsign : ∀ m ∈ markets, signOk env m.client_id m.client_secret = true) :
    ∃ rows,
      process_all env markets dispatch_date_str final_reason order_ids =
        .ok rows ∧
      rows.map ResultRow.order_id = order_ids ∧
      rows.length = order_ids.length := by
  induction order_ids with
  | nil => exact ⟨[], rfl, rfl, rfl⟩
  | cons oid rest ih =>
    obtain ⟨row, hrow, hid⟩ :=
      process_one_ok env markets dispatch_date_str final_reason oid hsign
    obtain ⟨rows, hrows, hmap, hlen⟩ := ih
    exact ⟨row :: rows, by simp [process_all, hrow, hrows],
      by simp [hid, hmap], by simp [hlen]⟩

/-- Witness for C4 (amended): against `testEnv`, two order IDs over the
dead-token and owning markets give exactly the two rows, in order. -/
theorem process_all_one_row_per_id_witness :
    (∀ m ∈ [mBad, mGood],
      signOk testEnv m.client_id m.client_secret = true) ∧
    ∃ rows,
      process_all testEnv [mBad, mGood] "2025-12-31" "기타 사유"
        ["ord-1", "ord-2"] = .ok rows ∧
      rows.map ResultRow.order_id = ["ord-1", "ord-2"] ∧
      rows.length = (["ord-1", "ord-2"] : List String).length :=
  ⟨by decide,
   process_all_one_row_per_id testEnv [mBad, mGood] "2025-12-31"
     "기타 사유" ["ord-1", "ord-2"] (by decide)⟩

/-- Counterexample to C9: `load_markets` does not deduplicate by name — a
sheet repeating the store name A마켓 on two valid rows yields two distinct
accounts carrying the same name. -/
theorem load_markets_duplicate_names :
    load_markets dupSheet =
      [⟨"A마켓", "id1", "secret1"⟩, ⟨"A마켓", "id2", "secret2"⟩] ∧
    (⟨"A마켓", "id1", "secret1"⟩ : Market) ≠ ⟨"A마켓", "id2", "secret2"⟩ ∧
    Market.store_name ⟨"A마켓", "id1", "secret1"⟩ =
      Market.store_name ⟨"A마켓", "id2", "secret2"⟩ :=
  ⟨by decide, by decide, rfl⟩

/-- C9 (amended): `load_markets` preserves the sheet's rows, so the
returned accounts have pairwise distinct names provided the stripped
first-column names of the data rows are pairwise distinct; uniqueness by
name is an assumption on the sheet, not enforced by the loader. -/
theorem load_markets_nodup_names (values : List (List String))
    (h : ((values.drop 1).map (fun row => S (row.getD 0 ""))).Nodup) :
    ((load_markets values).map Market.store_name).Nodup := by
  refine List.Nodup.sublist ?_ h
  unfold load_markets
  refine map_filterMap_sublist _ _ _ _ ?_
  intro row m hm
  dsimp only at hm
  split_ifs at hm with h1 h2
  · injection hm with hm
    rw [← hm]

/-- Witness for C9 (amended): a sheet with distinct names yields accounts
with distinct names. -/
theorem load_markets_nodup_names_witness :
    ((okSheet.drop 1).map (fun row => S (row.getD 0 ""))).Nodup ∧
    ((load_markets okSheet).map Market.store_name).Nodup :=
  ⟨by decide, load_markets_nodup_names okSheet (by decide)⟩

end DelayWebapp
